import Mathlib

/-!
# Verification of the scenario simulation and coverage-optimization engine

Shallow embedding of `backend/utils/scenario_whatif_2_1.py` and
`backend/utils/pareto_sensitivity_2_3.py` from the LifeFlight
decision-support backend, together with proofs of the specified
properties of coverage computation, capacity/cost/unmet-demand
estimation, scenario comparison, and the Pareto frontier analysis.

Python `int` values are modelled as `ℤ`, `float` values as `ℚ` except
for geographic coordinates and distances, which are modelled as `ℝ`
because the haversine formula uses transcendental functions.  A value
that may be NaN (pandas missing value) is modelled as `Option ℚ` with
`none` for NaN.  Python dicts built by insertion are modelled as
association lists with in-place update on an existing key.
-/

namespace LifeFlight

/-! ## Geographic distance (`calculate_base_coverage`, lines 119-130)

`from math import radians, sin, cos, sqrt, atan2`; the distance is
`3959 * c` with `c = 2 * atan2(sqrt a, sqrt (1-a))` and
`a = sin(dlat/2)^2 + cos lat1 * cos lat2 * sin(dlon/2)^2`. -/

/-- `math.radians`: degrees to radians. -/
noncomputable def deg2rad (x : ℝ) : ℝ := x * Real.pi / 180

open Classical in
/-- `math.atan2 y x`, the two-argument arctangent. -/
noncomputable def atan2 (y x : ℝ) : ℝ :=
  if 0 < x then Real.arctan (y / x)
  else if x < 0 ∧ 0 ≤ y then Real.arctan (y / x) + Real.pi
  else if x < 0 ∧ y < 0 then Real.arctan (y / x) - Real.pi
  else if x = 0 ∧ 0 < y then Real.pi / 2
  else if x = 0 ∧ y < 0 then -(Real.pi / 2)
  else 0

/-- The simplified-haversine distance in miles between `(baseLat, baseLon)`
and `(cityLat, cityLon)`, exactly as inlined in `calculate_base_coverage`. -/
noncomputable def haversineMiles (baseLat baseLon cityLat cityLon : ℝ) : ℝ :=
  let lat1 := deg2rad baseLat
  let lon1 := deg2rad baseLon
  let lat2 := deg2rad cityLat
  let lon2 := deg2rad cityLon
  let dlat := lat2 - lat1
  let dlon := lon2 - lon1
  let a := Real.sin (dlat / 2) ^ 2 +
    Real.cos lat1 * Real.cos lat2 * Real.sin (dlon / 2) ^ 2
  let c := 2 * atan2 (Real.sqrt a) (Real.sqrt (1 - a))
  3959 * c

theorem atan2_zero_one : atan2 0 1 = 0 := by
  simp [atan2]

/-- Distance from a point to itself is zero. -/
theorem haversineMiles_self (lat lon : ℝ) : haversineMiles lat lon lat lon = 0 := by
  unfold haversineMiles
  simp [atan2_zero_one]

/-! ## Coverage (`calculate_base_coverage`, lines 89-137) -/

/-- A base location dict `{'name': …, 'latitude': …, 'longitude': …}`. -/
structure BaseLoc where
  name : String
  latitude : ℝ
  longitude : ℝ

/-- One entry of the `city_coordinates` mapping: a city name together
with its possibly-null latitude and longitude. -/
abbrev CityEntry := String × Option ℝ × Option ℝ

open Classical in
/-- The inner loop of `calculate_base_coverage`: the cities whose
coordinates are present and whose distance to `base` is at most
`radius` (entries with a null coordinate are skipped by `continue`). -/
noncomputable def coveredCities (base : BaseLoc) (radius : ℝ)
    (cities : List CityEntry) : List String :=
  cities.filterMap fun e =>
    match e with
    | (city, some cityLat, some cityLon) =>
        if haversineMiles base.latitude base.longitude cityLat cityLon ≤ radius
        then some city else none
    | _ => none

/-- `d[k] = v` on an association list: replace the value at the first
occurrence of the key, else append the pair (Python dict insertion). -/
def dictInsert (k : String) (v : α) : List (String × α) → List (String × α)
  | [] => [(k, v)]
  | (k', v') :: rest =>
      if k' = k then (k, v) :: rest else (k', v') :: dictInsert k v rest

/-- Look up the value stored under key `k` in an association list. -/
def lookupKey (k : String) : List (String × α) → Option α
  | [] => none
  | (k', v) :: rest => if k' = k then some v else lookupKey k rest

/-- `calculate_base_coverage`: the dict mapping each base name to the
list of cities covered by that base within the service radius. -/
noncomputable def calculate_base_coverage (baseLocations : List BaseLoc)
    (serviceRadiusMiles : ℝ) (cityCoordinates : List CityEntry) :
    List (String × List String) :=
  baseLocations.foldl
    (fun cov base =>
      dictInsert base.name (coveredCities base serviceRadiusMiles cityCoordinates) cov)
    []

/-- The `all_covered_cities` set built in `simulate_scenario`
(lines 368-370): the union of the covered-city lists over all bases. -/
noncomputable def allCoveredCities (baseLocations : List BaseLoc)
    (serviceRadiusMiles : ℝ) (cityCoordinates : List CityEntry) : Finset String :=
  (calculate_base_coverage baseLocations serviceRadiusMiles cityCoordinates).foldl
    (fun acc e => acc ∪ e.2.toFinset) ∅

/-! ## Capacity (`estimate_mission_capacity`, lines 140-164) -/

/-- `estimate_mission_capacity`: the crew factor is computed but not
used (the `* crew_factor` term is commented out in the source); the
capacity is `fleet_size * avg_missions_per_vehicle_per_day *
operational_days_per_year`. -/
def estimate_mission_capacity (fleetSize crewsPerVehicle : ℤ)
    (avgMissionsPerVehiclePerDay : ℚ := 3) (operationalDaysPerYear : ℤ := 365) : ℚ :=
  let _crewFactor : ℚ := min 1 ((crewsPerVehicle : ℚ) / 2)
  (fleetSize : ℚ) * avgMissionsPerVehiclePerDay * (operationalDaysPerYear : ℚ)

/-! ## Unmet demand (`estimate_unmet_demand`, lines 248-277) -/

/-- Result dict of `estimate_unmet_demand`. -/
structure UnmetDemand where
  unmet_missions : ℚ
  unmet_rate : ℚ
  covered_demand : ℚ
  capacity : ℚ
  deriving DecidableEq, Repr

/-- `estimate_unmet_demand`. -/
def estimate_unmet_demand (historicalMissions : ℤ) (capacity : ℚ)
    (coverageRate : ℚ := 1) : UnmetDemand :=
  let coveredDemand : ℚ := (historicalMissions : ℚ) * coverageRate
  let unmet : ℚ := max 0 (coveredDemand - capacity)
  let unmetRate : ℚ := if 0 < coveredDemand then unmet / coveredDemand * 100 else 0
  { unmet_missions := unmet
    unmet_rate := unmetRate
    covered_demand := coveredDemand
    capacity := capacity }

/-! ## Cost (`estimate_cost`, lines 280-314) -/

/-- Result dict of `estimate_cost`. -/
structure CostBreakdown where
  total_cost : ℚ
  base_cost : ℚ
  vehicle_cost : ℚ
  crew_cost : ℚ
  cost_per_mission : ℚ
  deriving DecidableEq, Repr

/-- `estimate_cost`: pure arithmetic on the inputs; the function body
contains no validation and no raise statement. -/
def estimate_cost (fleetSize crewsPerVehicle baseCount : ℤ)
    (baseOperationalCostPerYear : ℚ := 500000) (vehicleCostPerYear : ℚ := 100000)
    (crewCostPerYear : ℚ := 80000) : CostBreakdown :=
  let baseCost : ℚ := (baseCount : ℚ) * baseOperationalCostPerYear
  let vehicleCost : ℚ := (fleetSize : ℚ) * vehicleCostPerYear
  let crewCost : ℚ := (fleetSize : ℚ) * (crewsPerVehicle : ℚ) * crewCostPerYear
  let totalCost : ℚ := baseCost + vehicleCost + crewCost
  { total_cost := totalCost
    base_cost := baseCost
    vehicle_cost := vehicleCost
    crew_cost := crewCost
    cost_per_mission := totalCost / 1000 }

/-! ## SLA attainment (`calculate_sla_attainment`, lines 167-245)

A historical mission record is modelled after the columns the function
reads: the pickup city, the calendar year parsed from `tdate`
(`none` when the date fails to parse), and the dispatch / en-route
times of day in minutes (`none` when `pd.to_datetime` yields `NaT` for
the combined date-time string).  String-to-timestamp parsing is the
pandas I/O boundary and is modelled as these already-parsed optional
fields. -/

/-- One row of the operational data, restricted to the columns used by
the scenario engine. -/
structure MissionRecord where
  city : String
  year : Option ℤ
  dispMin : Option ℚ
  enrMin : Option ℚ

/-- Result dict of `calculate_sla_attainment`. -/
structure SlaMetrics where
  attainment_rate : ℚ
  total_missions : ℤ
  within_sla : ℤ
  avg_response_time_minutes : ℚ
  deriving DecidableEq, Repr

/-- Response time in minutes for one record (lines 212-220): if the
en-route time is before the dispatch time the mission crossed
midnight, so one day (1440 minutes) is added; `none` when either
timestamp failed to parse. -/
def responseTimeMinutes (r : MissionRecord) : Option ℚ :=
  match r.dispMin, r.enrMin with
  | some d, some e => some (if e < d then e + 1440 - d else e - d)
  | _, _ => none

/-- `calculate_sla_attainment`. -/
def calculate_sla_attainment (coverageCities : List String)
    (records : List MissionRecord) (slaTargetMinutes : ℤ) : SlaMetrics :=
  let covered := records.filter fun r => coverageCities.contains r.city
  if covered.length = 0 then
    ⟨0, 0, 0, 0⟩
  else
    let validRt := covered.filterMap responseTimeMinutes
    if validRt.length = 0 then
      ⟨0, (covered.length : ℤ), 0, 0⟩
    else
      let withinSla := (validRt.filter fun rt => rt ≤ (slaTargetMinutes : ℚ)).length
      let total := validRt.length
      let attainmentRate : ℚ := if 0 < total then (withinSla : ℚ) / (total : ℚ) * 100 else 0
      ⟨attainmentRate, (total : ℤ), (withinSla : ℤ), validRt.sum / (total : ℚ)⟩

/-! ## Scenario simulation (`simulate_scenario`, lines 317-430)

The file reads (`maine_city_coordinates.json`, `read_data()`,
`get_base_locations()`) are the I/O boundary; the loaded city
coordinate catalog, base catalog (`existing_bases + candidate_bases`)
and mission records are passed to the embedding as explicit inputs. -/

/-- The `scenario_params` sub-dict of a simulation result. -/
structure ScenarioParams where
  fleet_size : ℤ
  crews_per_vehicle : ℤ
  base_locations : List String
  service_radius_miles : ℝ
  sla_target_minutes : ℤ

/-- The `missions` KPI sub-dict. -/
structure MissionsKpi where
  historical_annual : ℤ
  last_year_missions : ℤ
  estimated_capacity : ℚ
  covered_demand : ℚ
  deriving DecidableEq, Repr

/-- The `sla_attainment` KPI sub-dict. -/
structure SlaKpi where
  rate_percent : ℚ
  within_sla : ℤ
  total_evaluated : ℤ
  avg_response_time_minutes : ℚ
  deriving DecidableEq, Repr

/-- The `unmet_demand` KPI sub-dict. -/
structure UnmetKpi where
  missions : ℚ
  rate_percent : ℚ
  deriving DecidableEq, Repr

/-- The `coverage` KPI sub-dict. -/
structure CoverageKpi where
  cities_covered : ℤ
  total_cities : ℤ
  coverage_rate : ℚ
  deriving DecidableEq, Repr

/-- The `kpis` dict of a simulation result. -/
structure Kpis where
  missions : MissionsKpi
  sla_attainment : SlaKpi
  unmet_demand : UnmetKpi
  cost : CostBreakdown
  coverage : CoverageKpi
  deriving DecidableEq, Repr

/-- The full return dict of `simulate_scenario`. -/
structure ScenarioResult where
  scenario_params : ScenarioParams
  kpis : Kpis
  coverage_details : List (String × ℤ)

/-- `simulate_scenario`.  Note that the body contains no validation of
`base_locations` (or of any other parameter): an empty list flows
straight through coverage, SLA, unmet-demand and cost computation. -/
noncomputable def simulate_scenario (fleetSize crewsPerVehicle missionsPerVehiclePerDay : ℤ)
    (baseLocations : List String) (serviceRadiusMiles : ℝ) (slaTargetMinutes : ℤ)
    (baseCoordinates : Option (List BaseLoc))
    (cityCoords : List CityEntry) (allBases : List BaseLoc)
    (records : List MissionRecord) : ScenarioResult :=
  let baseCoords := match baseCoordinates with
    | none => allBases.filter fun b => baseLocations.contains b.name
    | some bc => bc
  let coverage := calculate_base_coverage baseCoords serviceRadiusMiles cityCoords
  let allCovered := allCoveredCities baseCoords serviceRadiusMiles cityCoords
  let coverageRate : ℚ :=
    if 0 < cityCoords.length then (allCovered.card : ℚ) / (cityCoords.length : ℚ) else 0
  let years := records.filterMap (·.year)
  let lastYearMissions : ℤ := match years.max? with
    | some m => ((records.filter fun r => r.year = some m).length : ℤ)
    | none => 0
  let historicalMissions : ℤ := (records.length : ℤ)
  let capacity := estimate_mission_capacity fleetSize crewsPerVehicle
    (missionsPerVehiclePerDay : ℚ) 365
  let slaMetrics := calculate_sla_attainment allCovered.toList records slaTargetMinutes
  let unmetMetrics := estimate_unmet_demand lastYearMissions capacity coverageRate
  let costMetrics := estimate_cost fleetSize crewsPerVehicle (baseLocations.length : ℤ)
  { scenario_params :=
      ⟨fleetSize, crewsPerVehicle, baseLocations, serviceRadiusMiles, slaTargetMinutes⟩
    kpis :=
      { missions :=
          ⟨historicalMissions, lastYearMissions, capacity, unmetMetrics.covered_demand⟩
        sla_attainment :=
          ⟨slaMetrics.attainment_rate, slaMetrics.within_sla, slaMetrics.total_missions,
            slaMetrics.avg_response_time_minutes⟩
        unmet_demand := ⟨unmetMetrics.unmet_missions, unmetMetrics.unmet_rate⟩
        cost := costMetrics
        coverage := ⟨(allCovered.card : ℤ), (cityCoords.length : ℤ), coverageRate * 100⟩ }
    coverage_details := coverage.map fun e => (e.1, (e.2.length : ℤ)) }

/-! ## Scenario comparison (`compare_scenarios`, lines 433-469) -/

/-- One row of the comparison table. -/
structure ComparisonRow where
  scenario_id : String
  fleet_size : ℤ
  bases : ℤ
  sla_attainment : ℚ
  unmet_demand : ℚ
  total_cost : ℚ
  coverage_rate : ℚ
  deriving DecidableEq, Repr

/-- The summary row built for scenario number `idx` (0-based). -/
def mkComparisonRow (idx : ℕ) (s : ScenarioResult) : ComparisonRow :=
  { scenario_id := "Scenario " ++ toString (idx + 1)
    fleet_size := s.scenario_params.fleet_size
    bases := (s.scenario_params.base_locations.length : ℤ)
    sla_attainment := s.kpis.sla_attainment.rate_percent
    unmet_demand := s.kpis.unmet_demand.missions
    total_cost := s.kpis.cost.total_cost
    coverage_rate := s.kpis.coverage.coverage_rate }

/-- One step of Python `max(l, key=f)`: keep the running best unless
the next element has a strictly greater key. -/
def maxStep (f : α → ℚ) (best x : α) : α := if f best < f x then x else best

/-- One step of Python `min(l, key=f)`: keep the running best unless
the next element has a strictly smaller key. -/
def minStep (f : α → ℚ) (best x : α) : α := if f x < f best then x else best

/-- Python `max(l, key=f)`: the first element attaining the maximum of
`f`. -/
def pyMaxBy (f : α → ℚ) : List α → Option α
  | [] => none
  | a :: l => some (l.foldl (maxStep f) a)

/-- Python `min(l, key=f)`: the first element attaining the minimum of
`f`. -/
def pyMinBy (f : α → ℚ) : List α → Option α
  | [] => none
  | a :: l => some (l.foldl (minStep f) a)

/-- Return dict of `compare_scenarios`.  On empty input the source
returns `{'comparison': []}`, a dict without the three selection keys;
the absent keys are modelled as `none`. -/
structure ComparisonResult where
  comparison : List ComparisonRow
  best_sla : Option ComparisonRow
  lowest_cost : Option ComparisonRow
  best_coverage : Option ComparisonRow

/-- `compare_scenarios`. -/
def compare_scenarios (scenarios : List ScenarioResult) : ComparisonResult :=
  if scenarios.length = 0 then ⟨[], none, none, none⟩
  else
    let comparison := scenarios.enum.map fun p => mkComparisonRow p.1 p.2
    { comparison := comparison
      best_sla := pyMaxBy (·.sla_attainment) comparison
      lowest_cost := pyMinBy (·.total_cost) comparison
      best_coverage := pyMaxBy (·.coverage_rate) comparison }

end LifeFlight

namespace LifeFlight

/-! ## Pareto frontier (`calculate_pareto_frontier`, lines 75-159)

A scenario enters this function as a dict of metric values; it is
modelled as an association list from metric name to `Option ℚ`, with
`none` for a NaN value.  `scenario.get(metric, 0)` returns the stored
value (possibly NaN) when the key is present and `0` otherwise. -/

/-- A scenario dict as seen by the Pareto analysis. -/
abbrev ScenDict := List (String × Option ℚ)

/-- `scenario.get(metric, 0)`. -/
def sget (s : ScenDict) (k : String) : Option ℚ :=
  match lookupKey k s with
  | some v => v
  | none => some 0

/-- An entry of the internal `points` list: the scenario with its
extracted x and y values. -/
structure PPoint where
  scen : ScenDict
  x : ℚ
  y : ℚ
  deriving DecidableEq, Repr

/-- Lines 98-110: extract the x and y metric of one scenario, skipping
the scenario when either is NaN or negative (`pd.isna(x_val) or
pd.isna(y_val) or x_val < 0 or y_val < 0`). -/
def validPoint (xMetric yMetric : String) (s : ScenDict) : Option PPoint :=
  match sget s xMetric, sget s yMetric with
  | some x, some y => if x < 0 ∨ y < 0 then none else some ⟨s, x, y⟩
  | _, _ => none

/-- The sort key `lambda p: p['x']` as a relation, for the stable sort
of the points list. -/
def ptLE (p q : PPoint) : Prop := p.x ≤ q.x

instance : DecidableRel ptLE := fun p q => inferInstanceAs (Decidable (p.x ≤ q.x))

instance : IsTotal PPoint ptLE := ⟨fun p q => le_total p.x q.x⟩

instance : IsTrans PPoint ptLE := ⟨fun _ _ _ h h' => le_trans h h'⟩

/-- Lines 133-149: does `other` dominate `p`? -/
def dominatesB (minimizeY : Bool) (other p : PPoint) : Bool :=
  if minimizeY then
    (decide (p.x ≤ other.x) && decide (other.y < p.y)) ||
      (decide (p.x < other.x) && decide (other.y ≤ p.y))
  else
    (decide (p.x ≤ other.x) && decide (p.y < other.y)) ||
      (decide (p.x < other.x) && decide (p.y ≤ other.y))

/-- The inner loop of the dominance check, carrying the running index
`j` of the candidate dominator: `any j ≠ i with points[j] dominating p`. -/
def existsDomFrom (minimizeY : Bool) (i : ℕ) (p : PPoint) : ℕ → List PPoint → Bool
  | _, [] => false
  | j, q :: qs =>
      (decide (j ≠ i) && dominatesB minimizeY q p) || existsDomFrom minimizeY i p (j + 1) qs

/-- Lines 122-149: is the point at index `i` dominated by some point
at a different index? -/
def isDominatedIdx (minimizeY : Bool) (points : List PPoint) (i : ℕ) (p : PPoint) : Bool :=
  existsDomFrom minimizeY i p 0 points

/-- Lines 122-154: split the (sorted) points into the Pareto-optimal
ones and the dominated ones, preserving order; `i` is the index of the
first element of the remaining list within `all`. -/
def paretoSplitGo (minimizeY : Bool) (all : List PPoint) : ℕ → List PPoint → List PPoint × List PPoint
  | _, [] => ([], [])
  | i, p :: ps =>
      let rest := paretoSplitGo minimizeY all (i + 1) ps
      if isDominatedIdx minimizeY all i p then (rest.1, p :: rest.2)
      else (p :: rest.1, rest.2)

/-- `calculate_pareto_frontier`. -/
def calculate_pareto_frontier (scenarios : List ScenDict)
    (xMetric : String := "coverage_rate") (yMetric : String := "avg_response_time")
    (minimizeY : Bool := true) : List ScenDict × List ScenDict :=
  if scenarios.length = 0 then ([], [])
  else
    let points := scenarios.filterMap (validPoint xMetric yMetric)
    if points.length = 0 then ([], scenarios)
    else
      let sorted := List.insertionSort ptLE points
      let split := paretoSplitGo minimizeY sorted 0 sorted
      let frontier := List.insertionSort ptLE split.1
      (frontier.map (·.scen), split.2.map (·.scen))

/-! ## Weighted score (`calculate_weighted_score` /
`find_optimal_scenario`, lines 162-237) -/

/-- A scenario dict with plain numeric metric values, and the weights
dict, as used by the weighted-score path. -/
abbrev MetricDict := List (String × ℚ)

/-- `d.get(k, 0)` on a plain numeric dict. -/
def mget (s : MetricDict) (k : String) : ℚ := (lookupKey k s).getD 0

/-- `calculate_weighted_score`.  The weights are used exactly as
given: the function contains no normalization of the weights. -/
def calculate_weighted_score (scenario : MetricDict) (weights : MetricDict)
    (normalize : Bool := true) : ℚ :=
  let coverage := mget scenario "coverage_rate"
  let sla := mget scenario "sla_attainment"
  let cost := mget scenario "total_cost"
  let coverage := if normalize then coverage / 100 else coverage
  let sla := if normalize then sla / 100 else sla
  let cost :=
    if normalize then (if 0 < cost then 1 - min 1 (cost / 10000000) else 1) else cost
  mget weights "population" * coverage + mget weights "sla" * sla +
    mget weights "cost" * cost

/-- `find_optimal_scenario`: score every scenario, then take the first
scenario attaining the maximal score. -/
def find_optimal_scenario (scenarios : List MetricDict) (weights : MetricDict) :
    Option MetricDict :=
  if scenarios.length = 0 then none
  else
    let scored := scenarios.map fun s => (s, calculate_weighted_score s weights)
    (pyMaxBy (·.2) scored).map (·.1)

end LifeFlight

namespace LifeFlight

/-! ## Helper notions and lemmas -/

/-- `r` is the first element of `l` attaining the maximum of `f`:
it is a member, no key exceeds its key, and every element strictly
before it has a strictly smaller key. -/
def argmaxFirst (f : α → ℚ) (l : List α) (r : α) : Prop :=
  r ∈ l ∧ (∀ x ∈ l, f x ≤ f r) ∧ ∃ l₁ l₂, l = l₁ ++ r :: l₂ ∧ ∀ x ∈ l₁, f x < f r

/-- `r` is the first element of `l` attaining the minimum of `f`. -/
def argminFirst (f : α → ℚ) (l : List α) (r : α) : Prop :=
  r ∈ l ∧ (∀ x ∈ l, f r ≤ f x) ∧ ∃ l₁ l₂, l = l₁ ++ r :: l₂ ∧ ∀ x ∈ l₁, f r < f x

theorem maxFold_spec (f : α → ℚ) (l : List α) : ∀ a : α,
    f a ≤ f (l.foldl (maxStep f) a) ∧
    (∀ x ∈ l, f x ≤ f (l.foldl (maxStep f) a)) ∧
    (l.foldl (maxStep f) a = a ∨
      ∃ l₁ r l₂, l = l₁ ++ r :: l₂ ∧ l.foldl (maxStep f) a = r ∧ f a < f r ∧
        ∀ x ∈ l₁, f x < f r) := by
  induction l with
  | nil => exact fun a => ⟨le_refl _, by simp, Or.inl rfl⟩
  | cons x xs ih =>
    intro a
    obtain ⟨ih1, ih2, ih3⟩ := ih (maxStep f a x)
    have hstep : f a ≤ f (maxStep f a x) ∧ f x ≤ f (maxStep f a x) := by
      unfold maxStep
      rcases lt_or_le (f a) (f x) with h | h
      · simp [h, le_of_lt h]
      · simp [not_lt.mpr h, h]
    refine ⟨le_trans hstep.1 ih1, ?_, ?_⟩
    · intro y hy
      rcases List.mem_cons.mp hy with rfl | hy'
      · exact le_trans hstep.2 ih1
      · exact ih2 y hy'
    · rcases ih3 with heq | ⟨l₁, r, l₂, hsplit, hres, hlt, hstrict⟩
      · by_cases hx : f a < f x
        · refine Or.inr ⟨[], x, xs, rfl, ?_, ?_, by simp⟩
          · simpa [maxStep, hx] using heq
          · have : maxStep f a x = x := by simp [maxStep, hx]
            calc f a < f x := hx
              _ = f x := rfl
        · left
          simpa [maxStep, hx] using heq
      · by_cases hx : f a < f x
        · have hax : maxStep f a x = x := by simp [maxStep, hx]
          refine Or.inr ⟨x :: l₁, r, l₂, by simp [hsplit], by simpa [List.foldl_cons], ?_, ?_⟩
          · have : f x < f r := by simpa [hax] using hlt
            exact lt_trans hx this
          · intro y hy
            rcases List.mem_cons.mp hy with rfl | hy'
            · simpa [hax] using hlt
            · exact hstrict y hy'
        · have hax : maxStep f a x = a := by simp [maxStep, hx]
          refine Or.inr ⟨x :: l₁, r, l₂, by simp [hsplit], by simpa [List.foldl_cons], ?_, ?_⟩
          · simpa [hax] using hlt
          · intro y hy
            rcases List.mem_cons.mp hy with rfl | hy'
            · have hya : f y ≤ f a := not_lt.mp hx
              have : f a < f r := by simpa [hax] using hlt
              exact lt_of_le_of_lt hya this
            · exact hstrict y hy'

theorem minFold_spec (f : α → ℚ) (l : List α) : ∀ a : α,
    f (l.foldl (minStep f) a) ≤ f a ∧
    (∀ x ∈ l, f (l.foldl (minStep f) a) ≤ f x) ∧
    (l.foldl (minStep f) a = a ∨
      ∃ l₁ r l₂, l = l₁ ++ r :: l₂ ∧ l.foldl (minStep f) a = r ∧ f r < f a ∧
        ∀ x ∈ l₁, f r < f x) := by
  induction l with
  | nil => exact fun a => ⟨le_refl _, by simp, Or.inl rfl⟩
  | cons x xs ih =>
    intro a
    obtain ⟨ih1, ih2, ih3⟩ := ih (minStep f a x)
    have hstep : f (minStep f a x) ≤ f a ∧ f (minStep f a x) ≤ f x := by
      unfold minStep
      rcases lt_or_le (f x) (f a) with h | h
      · simp [h, le_of_lt h]
      · simp [not_lt.mpr h, h]
    refine ⟨le_trans ih1 hstep.1, ?_, ?_⟩
    · intro y hy
      rcases List.mem_cons.mp hy with rfl | hy'
      · exact le_trans ih1 hstep.2
      · exact ih2 y hy'
    · rcases ih3 with heq | ⟨l₁, r, l₂, hsplit, hres, hlt, hstrict⟩
      · by_cases hx : f x < f a
        · refine Or.inr ⟨[], x, xs, rfl, ?_, hx, by simp⟩
          simpa [minStep, hx] using heq
        · left
          simpa [minStep, hx] using heq
      · by_cases hx : f x < f a
        · have hax : minStep f a x = x := by simp [minStep, hx]
          refine Or.inr ⟨x :: l₁, r, l₂, by simp [hsplit], by simpa [List.foldl_cons], ?_, ?_⟩
          · have : f r < f x := by simpa [hax] using hlt
            exact lt_trans this hx
          · intro y hy
            rcases List.mem_cons.mp hy with rfl | hy'
            · simpa [hax] using hlt
            · exact hstrict y hy'
        · have hax : minStep f a x = a := by simp [minStep, hx]
          refine Or.inr ⟨x :: l₁, r, l₂, by simp [hsplit], by simpa [List.foldl_cons], ?_, ?_⟩
          · simpa [hax] using hlt
          · intro y hy
            rcases List.mem_cons.mp hy with rfl | hy'
            · have : f r < f a := by simpa [hax] using hlt
              exact lt_of_lt_of_le this (not_lt.mp hx)
            · exact hstrict y hy'

theorem pyMaxBy_argmaxFirst (f : α → ℚ) (l : List α) (hl : l ≠ []) :
    ∃ r, pyMaxBy f l = some r ∧ argmaxFirst f l r := by
  cases l with
  | nil => exact absurd rfl hl
  | cons a l' =>
    obtain ⟨h1, h2, h3⟩ := maxFold_spec f l' a
    refine ⟨l'.foldl (maxStep f) a, rfl, ?_, ?_, ?_⟩
    · rcases h3 with heq | ⟨l₁, r, l₂, hsplit, hres, _, _⟩
      · rw [heq]; exact List.mem_cons_self a l'
      · rw [hres, hsplit]
        exact List.mem_cons_of_mem a (by simp)
    · intro x hx
      rcases List.mem_cons.mp hx with rfl | hx'
      · exact h1
      · exact h2 x hx'
    · rcases h3 with heq | ⟨l₁, r, l₂, hsplit, hres, hlt, hstrict⟩
      · exact ⟨[], l', by rw [heq]; simp, by simp⟩
      · refine ⟨a :: l₁, l₂, by rw [hres, hsplit]; simp, ?_⟩
        intro x hx
        rcases List.mem_cons.mp hx with rfl | hx'
        · rw [hres]; exact hlt
        · rw [hres]; exact hstrict x hx'

theorem pyMinBy_argminFirst (f : α → ℚ) (l : List α) (hl : l ≠ []) :
    ∃ r, pyMinBy f l = some r ∧ argminFirst f l r := by
  cases l with
  | nil => exact absurd rfl hl
  | cons a l' =>
    obtain ⟨h1, h2, h3⟩ := minFold_spec f l' a
    refine ⟨l'.foldl (minStep f) a, rfl, ?_, ?_, ?_⟩
    · rcases h3 with heq | ⟨l₁, r, l₂, hsplit, hres, _, _⟩
      · rw [heq]; exact List.mem_cons_self a l'
      · rw [hres, hsplit]
        exact List.mem_cons_of_mem a (by simp)
    · intro x hx
      rcases List.mem_cons.mp hx with rfl | hx'
      · exact h1
      · exact h2 x hx'
    · rcases h3 with heq | ⟨l₁, r, l₂, hsplit, hres, hlt, hstrict⟩
      · exact ⟨[], l', by rw [heq]; simp, by simp⟩
      · refine ⟨a :: l₁, l₂, by rw [hres, hsplit]; simp, ?_⟩
        intro x hx
        rcases List.mem_cons.mp hx with rfl | hx'
        · rw [hres]; exact hlt
        · rw [hres]; exact hstrict x hx'

/-! ## Coverage lemmas, for claims C1 and C9 -/

theorem mem_coveredCities {base : BaseLoc} {radius : ℝ} {cities : List CityEntry}
    {c : String} :
    c ∈ coveredCities base radius cities ↔
      ∃ la lo, ((c, some la, some lo) : CityEntry) ∈ cities ∧
        haversineMiles base.latitude base.longitude la lo ≤ radius := by
  unfold coveredCities
  rw [List.mem_filterMap]
  constructor
  · rintro ⟨⟨name, ola, olo⟩, he, hfe⟩
    cases ola with
    | none => simp at hfe
    | some la =>
      cases olo with
      | none => simp at hfe
      | some lo =>
        simp only at hfe
        split_ifs at hfe with hd
        obtain rfl : name = c := by simpa using hfe
        exact ⟨la, lo, he, hd⟩
  · rintro ⟨la, lo, hin, hd⟩
    refine ⟨(c, some la, some lo), hin, ?_⟩
    simp [hd]

theorem dictInsert_of_not_mem_keys {k : String} {v : α} {acc : List (String × α)}
    (h : k ∉ acc.map Prod.fst) : dictInsert k v acc = acc ++ [(k, v)] := by
  induction acc with
  | nil => rfl
  | cons p rest ih =>
    obtain ⟨k', v'⟩ := p
    simp only [List.map_cons, List.mem_cons, not_or] at h
    simp only [dictInsert]
    rw [if_neg fun hh => h.1 hh.symm, ih h.2]
    simp

theorem foldl_dictInsert_eq_append (ps : List (String × α)) :
    ∀ acc : List (String × α), (ps.map Prod.fst).Nodup →
      (∀ k ∈ ps.map Prod.fst, k ∉ acc.map Prod.fst) →
      ps.foldl (fun d p => dictInsert p.1 p.2 d) acc = acc ++ ps := by
  induction ps with
  | nil => intro acc _ _; simp
  | cons p rest ih =>
    intro acc hnd hdisj
    simp only [List.map_cons, List.nodup_cons] at hnd
    simp only [List.foldl_cons]
    have hp : p.1 ∉ acc.map Prod.fst := hdisj p.1 (by simp)
    rw [dictInsert_of_not_mem_keys hp]
    rw [ih (acc ++ [p]) hnd.2 ?_]
    · simp
    · intro k hk
      simp only [List.map_append, List.mem_append, not_or]
      refine ⟨hdisj k (by simp [hk]), ?_⟩
      simp only [List.map_cons, List.map_nil, List.mem_singleton]
      intro hkp
      rw [hkp] at hk
      exact hnd.1 hk

theorem calculate_base_coverage_eq_map (bases : List BaseLoc) (r : ℝ)
    (cities : List CityEntry) (hnd : (bases.map BaseLoc.name).Nodup) :
    calculate_base_coverage bases r cities =
      bases.map fun b => (b.name, coveredCities b r cities) := by
  unfold calculate_base_coverage
  have h2 : ((bases.map fun b => (b.name, coveredCities b r cities)).map Prod.fst).Nodup := by
    simpa [List.map_map, Function.comp] using hnd
  have h3 := foldl_dictInsert_eq_append
    (bases.map fun b => (b.name, coveredCities b r cities)) [] h2
    (by intro k _ hk; simp at hk)
  rw [List.foldl_map] at h3
  simpa using h3

theorem lookupKey_coverage_map (bases : List BaseLoc) (r : ℝ) (cities : List CityEntry)
    (b : BaseLoc) (hb : b ∈ bases) (hnd : (bases.map BaseLoc.name).Nodup) :
    lookupKey b.name (bases.map fun x => (x.name, coveredCities x r cities)) =
      some (coveredCities b r cities) := by
  induction bases with
  | nil => cases hb
  | cons a rest ih =>
    simp only [List.map_cons, List.nodup_cons] at hnd
    simp only [List.map_cons, lookupKey]
    rcases List.mem_cons.mp hb with rfl | hbr
    · rw [if_pos rfl]
    · by_cases hn : a.name = b.name
      · exfalso
        have hmem : b.name ∈ rest.map BaseLoc.name := List.mem_map_of_mem _ hbr
        rw [← hn] at hmem
        exact hnd.1 hmem
      · rw [if_neg hn]
        exact ih hbr hnd.2

/-! ## Claim C1: coverage assignment -/

/-- C1 counterexample: two distinct bases at the same point both list
the same city — `calculate_base_coverage` assigns a location to every
base within the service radius, not only to the nearest one, so the
same location name appears under two different bases in one result. -/
theorem calculate_base_coverage_multi_assign_cex :
    calculate_base_coverage [⟨"A", 0, 0⟩, ⟨"B", 0, 0⟩] 10 [("X", some 0, some 0)] =
      [("A", ["X"]), ("B", ["X"])] := by
  have hd : haversineMiles 0 0 0 0 ≤ (10 : ℝ) := by
    rw [haversineMiles_self]; norm_num
  simp +decide [calculate_base_coverage, coveredCities, dictInsert, hd]

/-- C1 amended: `calculate_base_coverage` assigns each location to
every base within the service radius (so in particular to its nearest
in-radius base, but possibly to several bases): for each base in the
input (with distinct base names), its entry in the result lists
exactly the locations with present coordinates whose distance to that
base is at most the radius. -/
theorem calculate_base_coverage_within_radius_amended (bases : List BaseLoc) (r : ℝ)
    (cities : List CityEntry) (b : BaseLoc) (hb : b ∈ bases)
    (hnd : (bases.map BaseLoc.name).Nodup) :
    ∃ lst, lookupKey b.name (calculate_base_coverage bases r cities) = some lst ∧
      ∀ c, (c ∈ lst ↔ ∃ la lo, ((c, some la, some lo) : CityEntry) ∈ cities ∧
        haversineMiles b.latitude b.longitude la lo ≤ r) := by
  refine ⟨coveredCities b r cities, ?_, fun c => mem_coveredCities⟩
  rw [calculate_base_coverage_eq_map bases r cities hnd]
  exact lookupKey_coverage_map bases r cities b hb hnd

/-- C1 witness: the amended claim at a one-base, one-city input. -/
theorem calculate_base_coverage_within_radius_amended_witness :
    ((⟨"A", 0, 0⟩ : BaseLoc) ∈ [(⟨"A", 0, 0⟩ : BaseLoc)] ∧
      (([(⟨"A", 0, 0⟩ : BaseLoc)]).map BaseLoc.name).Nodup) ∧
    (∃ lst, lookupKey (BaseLoc.name ⟨"A", 0, 0⟩)
        (calculate_base_coverage [⟨"A", 0, 0⟩] 10 [("X", some 0, some 0)]) = some lst ∧
      ∀ c, (c ∈ lst ↔ ∃ la lo,
        ((c, some la, some lo) : CityEntry) ∈ [(("X", some 0, some 0) : CityEntry)] ∧
        haversineMiles (BaseLoc.latitude ⟨"A", 0, 0⟩) (BaseLoc.longitude ⟨"A", 0, 0⟩)
          la lo ≤ 10)) :=
  ⟨⟨List.mem_singleton.mpr rfl, by simp⟩,
    calculate_base_coverage_within_radius_amended [⟨"A", 0, 0⟩] 10
      [("X", some 0, some 0)] ⟨"A", 0, 0⟩ (List.mem_singleton.mpr rfl) (by simp)⟩

/-! ## Claim C9: coverage monotonicity in the radius -/

/-- The pointwise relation between two coverage dicts computed at two
radii: same key, and the first covered-city list is contained in the
second. -/
def covRel (p q : String × List String) : Prop :=
  p.1 = q.1 ∧ ∀ c ∈ p.2, c ∈ q.2

theorem coveredCities_mono {b : BaseLoc} {r₁ r₂ : ℝ} {cities : List CityEntry}
    (h : r₁ ≤ r₂) : ∀ c ∈ coveredCities b r₁ cities, c ∈ coveredCities b r₂ cities := by
  intro c hc
  rw [mem_coveredCities] at hc ⊢
  obtain ⟨la, lo, hin, hd⟩ := hc
  exact ⟨la, lo, hin, le_trans hd h⟩

theorem dictInsert_covRel :
    ∀ (acc₁ acc₂ : List (String × List String)), List.Forall₂ covRel acc₁ acc₂ →
      ∀ (k : String) (v₁ v₂ : List String), (∀ c ∈ v₁, c ∈ v₂) →
      List.Forall₂ covRel (dictInsert k v₁ acc₁) (dictInsert k v₂ acc₂) := by
  intro acc₁
  induction acc₁ with
  | nil =>
    intro acc₂ h k v₁ v₂ hv
    rw [List.forall₂_nil_left_iff.mp h]
    exact List.Forall₂.cons ⟨rfl, hv⟩ List.Forall₂.nil
  | cons p rest ih =>
    intro acc₂ h k v₁ v₂ hv
    rcases List.forall₂_cons_left_iff.mp h with ⟨q, qs, hpq, hrest, rfl⟩
    obtain ⟨pk, pv⟩ := p
    obtain ⟨qk, qv⟩ := q
    obtain ⟨hkeq, hsub⟩ := hpq
    simp only at hkeq
    subst hkeq
    simp only [dictInsert]
    by_cases hk : pk = k
    · rw [if_pos hk, if_pos hk]
      exact List.Forall₂.cons ⟨rfl, hv⟩ hrest
    · rw [if_neg hk, if_neg hk]
      exact List.Forall₂.cons ⟨rfl, hsub⟩ (ih qs hrest k v₁ v₂ hv)

theorem calculate_base_coverage_covRel (bases : List BaseLoc) (r₁ r₂ : ℝ)
    (cities : List CityEntry) (h : r₁ ≤ r₂) :
    List.Forall₂ covRel (calculate_base_coverage bases r₁ cities)
      (calculate_base_coverage bases r₂ cities) := by
  unfold calculate_base_coverage
  suffices hgen : ∀ (bs : List BaseLoc) (acc₁ acc₂ : List (String × List String)),
      List.Forall₂ covRel acc₁ acc₂ →
      List.Forall₂ covRel
        (bs.foldl (fun cov base => dictInsert base.name (coveredCities base r₁ cities) cov) acc₁)
        (bs.foldl (fun cov base => dictInsert base.name (coveredCities base r₂ cities) cov) acc₂) by
    exact hgen bases [] [] List.Forall₂.nil
  intro bs
  induction bs with
  | nil => exact fun _ _ h' => h'
  | cons b rest ih =>
    intro acc₁ acc₂ hacc
    simp only [List.foldl_cons]
    exact ih _ _ (dictInsert_covRel acc₁ acc₂ hacc b.name _ _ (coveredCities_mono h))

theorem foldl_union_subset :
    ∀ (l₁ l₂ : List (String × List String)), List.Forall₂ covRel l₁ l₂ →
      ∀ (s₁ s₂ : Finset String), s₁ ⊆ s₂ →
      l₁.foldl (fun acc e => acc ∪ e.2.toFinset) s₁ ⊆
        l₂.foldl (fun acc e => acc ∪ e.2.toFinset) s₂ := by
  intro l₁ l₂ h
  induction h with
  | nil => intro s₁ s₂ hs; simpa using hs
  | @cons p q l₁' l₂' hpq hrest ih =>
    intro s₁ s₂ hs
    simp only [List.foldl_cons]
    apply ih
    refine Finset.union_subset_union hs ?_
    intro c hc
    rw [List.mem_toFinset] at hc ⊢
    exact hpq.2 c hc

/-- C9: for fixed bases and city catalog, and radii `r₁ ≤ r₂`, the set
of cities covered by at least one base at radius `r₁` is contained in
the set at radius `r₂`, so the covered-city count never decreases as
the radius increases. -/
theorem coverage_monotone_in_radius (bases : List BaseLoc) (cities : List CityEntry)
    (r₁ r₂ : ℝ) (h : r₁ ≤ r₂) :
    allCoveredCities bases r₁ cities ⊆ allCoveredCities bases r₂ cities ∧
    (allCoveredCities bases r₁ cities).card ≤ (allCoveredCities bases r₂ cities).card := by
  have hsub : allCoveredCities bases r₁ cities ⊆ allCoveredCities bases r₂ cities := by
    unfold allCoveredCities
    exact foldl_union_subset _ _
      (calculate_base_coverage_covRel bases r₁ r₂ cities h) ∅ ∅ (subset_refl _)
  exact ⟨hsub, Finset.card_le_card hsub⟩

/-- C9 witness: monotonicity applied at radii `1 ≤ 2` on a concrete
one-base, one-city input. -/
theorem coverage_monotone_in_radius_witness :
    (1 : ℝ) ≤ 2 ∧
    (allCoveredCities [⟨"A", 0, 0⟩] 1 [("X", some 0, some 0)] ⊆
        allCoveredCities [⟨"A", 0, 0⟩] 2 [("X", some 0, some 0)] ∧
      (allCoveredCities [⟨"A", 0, 0⟩] 1 [("X", some 0, some 0)]).card ≤
        (allCoveredCities [⟨"A", 0, 0⟩] 2 [("X", some 0, some 0)]).card) :=
  ⟨by norm_num,
    coverage_monotone_in_radius [⟨"A", 0, 0⟩] [("X", some 0, some 0)] 1 2 (by norm_num)⟩

/-! ## Claim C4: empty base list is not rejected -/

/-- City catalog used in the empty-base-list evaluation. -/
def cexCityCoords : List CityEntry :=
  [("BANGOR", some 10, some 20), ("PORTLAND", some 30, some 40)]

/-- Base catalog (`existing_bases + candidate_bases`) used in the
empty-base-list evaluation. -/
def cexCatalog : List BaseLoc := [⟨"BANGOR", 10, 20⟩]

/-- Two mission records used in the empty-base-list evaluation. -/
def cexRecords : List MissionRecord :=
  [⟨"BANGOR", some 2023, some 600, some 615⟩, ⟨"PORTLAND", some 2024, some 0, some 30⟩]

/-- C4: `simulate_scenario` contains no validation of
`base_locations`.  Called with an empty base list it does not fail: it
runs the whole pipeline and returns a degenerate KPI bundle (zero
coverage, zero SLA, zero unmet demand, cost still computed for zero
bases). -/
theorem simulate_scenario_empty_bases_eval :
    simulate_scenario 3 2 3 [] 50 20 none cexCityCoords cexCatalog cexRecords =
      ⟨⟨3, 2, [], 50, 20⟩,
       ⟨⟨2, 1, 3285, 0⟩, ⟨0, 0, 0, 0⟩, ⟨0, 0⟩,
        ⟨780000, 0, 300000, 480000, 780⟩, ⟨0, 2, 0⟩⟩,
       []⟩ := by
  have hfilter : (cexCatalog.filter fun b => ([] : List String).contains b.name) =
      ([] : List BaseLoc) := rfl
  have hall : allCoveredCities ([] : List BaseLoc) 50 cexCityCoords = ∅ := rfl
  simp only [simulate_scenario, hfilter, hall, Finset.toList_empty]
  set_option maxRecDepth 10000 in with_unfolding_all rfl

/-! ## Claim C5: scenario comparison -/

/-- The behavior of `compare_scenarios` on a non-empty input: one
summary row per scenario (row `i` built from scenario `i`), and the
three selections are first-occurrence argmax of SLA attainment, argmin
of total cost, and argmax of coverage rate over the comparison rows. -/
def compareSpec (scenarios : List ScenarioResult) : Prop :=
  (compare_scenarios scenarios).comparison.length = scenarios.length ∧
  (∀ (i : ℕ) (hi : i < scenarios.length)
      (hi2 : i < (compare_scenarios scenarios).comparison.length),
    (compare_scenarios scenarios).comparison.get ⟨i, hi2⟩ =
      mkComparisonRow i (scenarios.get ⟨i, hi⟩)) ∧
  (∃ r, (compare_scenarios scenarios).best_sla = some r ∧
    argmaxFirst (fun row => row.sla_attainment) (compare_scenarios scenarios).comparison r) ∧
  (∃ r, (compare_scenarios scenarios).lowest_cost = some r ∧
    argminFirst (fun row => row.total_cost) (compare_scenarios scenarios).comparison r) ∧
  (∃ r, (compare_scenarios scenarios).best_coverage = some r ∧
    argmaxFirst (fun row => row.coverage_rate) (compare_scenarios scenarios).comparison r)

/-- C5 counterexample: called with an empty scenario list,
`compare_scenarios` does not raise — it returns the early-exit dict
`{'comparison': []}` (without the three selection keys, modelled as
`none`). -/
theorem compare_scenarios_empty_cex :
    compare_scenarios [] = ⟨[], none, none, none⟩ := rfl

/-- C5 amended: `compare_scenarios` tolerates an empty input by
returning `{'comparison': []}` instead of raising; for every non-empty
input it returns one summary row per scenario plus first-occurrence
argmax(SLA), argmin(cost) and argmax(coverage) selections. -/
theorem compare_scenarios_spec_amended (scenarios : List ScenarioResult)
    (h : scenarios ≠ []) : compareSpec scenarios := by
  have hlen : ¬(scenarios.length = 0) := by
    simpa [List.length_eq_zero] using h
  have hrows : (compare_scenarios scenarios).comparison =
      scenarios.enum.map fun p => mkComparisonRow p.1 p.2 := by
    simp [compare_scenarios, if_neg hlen]
  have hrowlen : (compare_scenarios scenarios).comparison.length = scenarios.length := by
    rw [hrows]; simp
  have hrne : (compare_scenarios scenarios).comparison ≠ [] := by
    intro hnil
    rw [hnil] at hrowlen
    exact hlen hrowlen.symm
  refine ⟨hrowlen, ?_, ?_, ?_, ?_⟩
  · intro i hi hi2
    rw [List.get_eq_getElem, List.get_eq_getElem]
    simp only [hrows, List.getElem_map, List.getElem_enum]
  · obtain ⟨r, hr, hspec⟩ :=
      pyMaxBy_argmaxFirst (fun row => row.sla_attainment)
        (compare_scenarios scenarios).comparison hrne
    refine ⟨r, ?_, hspec⟩
    rw [show (compare_scenarios scenarios).best_sla =
        pyMaxBy (fun row => row.sla_attainment) (compare_scenarios scenarios).comparison
      from ?_]
    · exact hr
    · simp [compare_scenarios, if_neg hlen]
  · obtain ⟨r, hr, hspec⟩ :=
      pyMinBy_argminFirst (fun row => row.total_cost)
        (compare_scenarios scenarios).comparison hrne
    refine ⟨r, ?_, hspec⟩
    rw [show (compare_scenarios scenarios).lowest_cost =
        pyMinBy (fun row => row.total_cost) (compare_scenarios scenarios).comparison
      from ?_]
    · exact hr
    · simp [compare_scenarios, if_neg hlen]
  · obtain ⟨r, hr, hspec⟩ :=
      pyMaxBy_argmaxFirst (fun row => row.coverage_rate)
        (compare_scenarios scenarios).comparison hrne
    refine ⟨r, ?_, hspec⟩
    rw [show (compare_scenarios scenarios).best_coverage =
        pyMaxBy (fun row => row.coverage_rate) (compare_scenarios scenarios).comparison
      from ?_]
    · exact hr
    · simp [compare_scenarios, if_neg hlen]

/-- A minimal scenario result for concrete checks: only the fields the
comparison reads are non-trivial. -/
def sampleScenarioResult (fleet : ℤ) (sla cost cov : ℚ) : ScenarioResult :=
  ⟨⟨fleet, 2, [], 50, 20⟩,
   ⟨⟨0, 0, 0, 0⟩, ⟨sla, 0, 0, 0⟩, ⟨0, 0⟩, ⟨cost, 0, 0, 0, 0⟩, ⟨0, 0, cov⟩⟩,
   []⟩

/-- C5 witness: the amended specification applied to a concrete
two-scenario input. -/
theorem compare_scenarios_spec_amended_witness :
    [sampleScenarioResult 1 90 100 80, sampleScenarioResult 2 95 90 70] ≠ [] ∧
    compareSpec [sampleScenarioResult 1 90 100 80, sampleScenarioResult 2 95 90 70] :=
  ⟨by simp, compare_scenarios_spec_amended _ (by simp)⟩

/-! ## Claim C6: weighted score and weight scaling -/

/-- Scale every weight by the constant `c`. -/
def scaleWeights (c : ℚ) (w : MetricDict) : MetricDict :=
  w.map fun p => (p.1, c * p.2)

theorem lookupKey_map_value (k : String) (g : ℚ → ℚ) (w : MetricDict) :
    lookupKey k (w.map fun p => (p.1, g p.2)) = (lookupKey k w).map g := by
  induction w with
  | nil => rfl
  | cons p rest ih =>
    by_cases h : p.1 = k <;> simp [lookupKey, h, ih]

theorem mget_scaleWeights (c : ℚ) (w : MetricDict) (k : String) :
    mget (scaleWeights c w) k = c * mget w k := by
  unfold mget scaleWeights
  rw [lookupKey_map_value]
  cases lookupKey k w <;> simp

theorem calculate_weighted_score_scale (s w : MetricDict) (c : ℚ) (norm : Bool) :
    calculate_weighted_score s (scaleWeights c w) norm =
      c * calculate_weighted_score s w norm := by
  unfold calculate_weighted_score
  simp only [mget_scaleWeights]
  ring

theorem pairFold_eq (g : α → ℚ) (k : ℚ → ℚ) (hk : ∀ x y : ℚ, k x < k y ↔ x < y)
    (l : List α) : ∀ a : α,
    (l.map fun s => (s, k (g s))).foldl (maxStep Prod.snd) (a, k (g a)) =
      (l.foldl (maxStep g) a, k (g (l.foldl (maxStep g) a))) := by
  induction l with
  | nil => intro _; rfl
  | cons x xs ih =>
    intro a
    have hstep : maxStep Prod.snd (a, k (g a)) (x, k (g x)) =
        (maxStep g a x, k (g (maxStep g a x))) := by
      unfold maxStep
      simp only [hk]
      by_cases h : g a < g x <;> simp [h]
    simp only [List.map_cons, List.foldl_cons, hstep]
    exact ih (maxStep g a x)

theorem find_optimal_scenario_scale (scenarios : List MetricDict) (w : MetricDict)
    (c : ℚ) (hc : 0 < c) :
    find_optimal_scenario scenarios (scaleWeights c w) =
      find_optimal_scenario scenarios w := by
  unfold find_optimal_scenario
  by_cases hlen : scenarios.length = 0
  · simp [hlen]
  · simp only [if_neg hlen]
    cases scenarios with
    | nil => simp at hlen
    | cons a l =>
      have hmapeq :
          (fun s : MetricDict => (s, calculate_weighted_score s (scaleWeights c w))) =
            fun s : MetricDict => (s, c * calculate_weighted_score s w) := by
        funext s
        rw [calculate_weighted_score_scale]
      have h1 := pairFold_eq (fun s : MetricDict => calculate_weighted_score s w)
        (fun q => c * q) (fun x y => mul_lt_mul_left hc) l a
      have h2 := pairFold_eq (fun s : MetricDict => calculate_weighted_score s w)
        id (fun x y => Iff.rfl) l a
      simp only [id_eq] at h2
      simp only [List.map_cons, hmapeq, pyMaxBy, List.foldl_cons]
      simp only [List.map_cons, List.foldl_cons] at h1 h2
      rw [show ((a, c * calculate_weighted_score a w) :
            MetricDict × ℚ) = (a, (fun q => c * q) (calculate_weighted_score a w)) from rfl]
      rw [h1, h2]
      rfl

/-- C6 counterexample: scaling all weights by the positive constant 2
changes the reported weighted score (from 1 to 2 on this input), so
the weights are not normalized to sum to 1 before use. -/
theorem weighted_score_scaling_cex :
    calculate_weighted_score [("coverage_rate", 100)]
        (scaleWeights 2 [("population", 1)]) true ≠
      calculate_weighted_score [("coverage_rate", 100)] [("population", 1)] true := by
  have h1 : calculate_weighted_score [("coverage_rate", 100)]
      (scaleWeights 2 [("population", 1)]) true = 2 := by
    simp +decide [calculate_weighted_score, scaleWeights, mget, lookupKey]
  have h2 : calculate_weighted_score [("coverage_rate", 100)] [("population", 1)] true = 1 := by
    simp +decide [calculate_weighted_score, mget, lookupKey]
  rw [h1, h2]
  norm_num

/-- C6 amended: the weights are used exactly as given (no
normalization): the weighted score is linear in the weights, so
scaling all weights by the same positive constant scales the reported
score by that constant, while the scenario selected by
`find_optimal_scenario` never changes. -/
theorem weighted_score_scaling_amended (s w : MetricDict) (c : ℚ) (norm : Bool)
    (scenarios : List MetricDict) (hc : 0 < c) :
    calculate_weighted_score s (scaleWeights c w) norm =
      c * calculate_weighted_score s w norm ∧
    find_optimal_scenario scenarios (scaleWeights c w) =
      find_optimal_scenario scenarios w :=
  ⟨calculate_weighted_score_scale s w c norm,
    find_optimal_scenario_scale scenarios w c hc⟩

/-- C6 witness: the amended claim at concrete inputs with `c = 2`. -/
theorem weighted_score_scaling_amended_witness :
    (0:ℚ) < 2 ∧
    (calculate_weighted_score [("coverage_rate", 100)]
        (scaleWeights 2 [("population", 1)]) true =
      2 * calculate_weighted_score [("coverage_rate", 100)] [("population", 1)] true ∧
    find_optimal_scenario [[("coverage_rate", 100)]]
        (scaleWeights 2 [("population", 1)]) =
      find_optimal_scenario [[("coverage_rate", 100)]] [("population", 1)]) :=
  ⟨by norm_num,
    weighted_score_scaling_amended [("coverage_rate", 100)] [("population", 1)] 2 true
      [[("coverage_rate", 100)]] (by norm_num)⟩

/-! ## Pareto frontier lemmas, for claims C2 and C10 -/

/-- The x metric value of a scenario (`scenario.get(x_metric, 0)` with
`0` for NaN, the value the claims speak about for valid points). -/
def xOf (xm : String) (s : ScenDict) : ℚ := (sget s xm).getD 0

/-- The y metric value of a scenario. -/
def yOf (ym : String) (s : ScenDict) : ℚ := (sget s ym).getD 0

/-- A scenario whose x and y metrics are present (not NaN) and
non-negative, i.e. one that survives the validity filter. -/
def isValidScen (xm ym : String) (s : ScenDict) : Prop :=
  (validPoint xm ym s).isSome = true

instance (xm ym : String) (s : ScenDict) : Decidable (isValidScen xm ym s) :=
  inferInstanceAs (Decidable ((validPoint xm ym s).isSome = true))

/-- `t` dominates `s` (minimize-y direction): better-or-equal x with
strictly better y, or strictly better x with better-or-equal y. -/
def domRel (xm ym : String) (t s : ScenDict) : Prop :=
  (xOf xm s ≤ xOf xm t ∧ yOf ym t < yOf ym s) ∨
    (xOf xm s < xOf xm t ∧ yOf ym t ≤ yOf ym s)

/-- The point built from a valid scenario. -/
def mkPt (xm ym : String) (s : ScenDict) : PPoint := ⟨s, xOf xm s, yOf ym s⟩

theorem validPoint_eq_mkPt {xm ym : String} {s : ScenDict}
    (h : isValidScen xm ym s) : validPoint xm ym s = some (mkPt xm ym s) := by
  unfold isValidScen validPoint at *
  cases hx : sget s xm with
  | none => rw [hx] at h; simp at h
  | some x =>
    cases hy : sget s ym with
    | none => rw [hx, hy] at h; simp at h
    | some y =>
      rw [hx, hy] at h
      simp only at h ⊢
      split_ifs at h ⊢ with hneg
      · simp at h
      · simp [mkPt, xOf, yOf, hx, hy]

theorem validPoint_scen {xm ym : String} {s : ScenDict} {p : PPoint}
    (h : validPoint xm ym s = some p) : p = mkPt xm ym s ∧ isValidScen xm ym s := by
  have hv : isValidScen xm ym s := by
    unfold isValidScen
    rw [h]
    rfl
  have := validPoint_eq_mkPt hv
  rw [this] at h
  exact ⟨(Option.some_inj.mp h).symm, hv⟩

theorem filterMap_validPoint_eq_map {xm ym : String} {scenarios : List ScenDict}
    (hval : ∀ s ∈ scenarios, isValidScen xm ym s) :
    scenarios.filterMap (validPoint xm ym) = scenarios.map (mkPt xm ym) := by
  induction scenarios with
  | nil => rfl
  | cons a l ih =>
    rw [List.filterMap_cons, validPoint_eq_mkPt (hval a (by simp)), List.map_cons]
    rw [ih fun s hs => hval s (by simp [hs])]

theorem dominatesB_self (minY : Bool) (p : PPoint) : dominatesB minY p p = false := by
  cases minY <;> simp [dominatesB, lt_irrefl]

theorem dominatesB_mkPt_iff {xm ym : String} {t s : ScenDict} :
    dominatesB true (mkPt xm ym t) (mkPt xm ym s) = true ↔ domRel xm ym t s := by
  simp [dominatesB, domRel, mkPt]

theorem existsDomFrom_iff (minY : Bool) (i : ℕ) (p : PPoint) :
    ∀ (l : List PPoint) (j : ℕ),
      (existsDomFrom minY i p j l = true ↔
        ∃ k, ∃ hk : k < l.length, j + k ≠ i ∧
          dominatesB minY (l.get ⟨k, hk⟩) p = true) := by
  intro l
  induction l with
  | nil => intro j; simp [existsDomFrom]
  | cons q qs ih =>
    intro j
    simp only [existsDomFrom, Bool.or_eq_true, Bool.and_eq_true, decide_eq_true_eq]
    constructor
    · rintro (⟨hji, hdom⟩ | h)
      · exact ⟨0, by simp, by simpa using hji, by simpa using hdom⟩
      · obtain ⟨k, hk, hne, hdom⟩ := (ih (j + 1)).mp h
        refine ⟨k + 1, by simpa using Nat.succ_lt_succ hk, ?_, ?_⟩
        · omega
        · simpa using hdom
    · rintro ⟨k, hk, hne, hdom⟩
      cases k with
      | zero =>
        left
        exact ⟨by simpa using hne, by simpa using hdom⟩
      | succ k' =>
        right
        refine (ih (j + 1)).mpr ⟨k', by simp only [List.length_cons] at hk; omega, by omega, ?_⟩
        simpa using hdom

theorem isDominatedIdx_iff (minY : Bool) (points : List PPoint) (i : ℕ) (p : PPoint)
    (hi : i < points.length) (hip : points.get ⟨i, hi⟩ = p) :
    (isDominatedIdx minY points i p = true ↔
      ∃ q ∈ points, dominatesB minY q p = true) := by
  unfold isDominatedIdx
  rw [existsDomFrom_iff]
  constructor
  · rintro ⟨k, hk, _, hdom⟩
    exact ⟨points.get ⟨k, hk⟩, List.get_mem _ _ _, hdom⟩
  · rintro ⟨q, hq, hdom⟩
    obtain ⟨⟨k, hk⟩, rfl⟩ := List.mem_iff_get.mp hq
    by_cases hki : k = i
    · exfalso
      subst hki
      have : points.get ⟨k, hk⟩ = p := by
        rw [← hip]
      rw [this] at hdom
      rw [dominatesB_self] at hdom
      exact Bool.noConfusion hdom
    · exact ⟨k, hk, by omega, hdom⟩

end LifeFlight

namespace LifeFlight

theorem paretoSplitGo_snd_mem (minY : Bool) (all : List PPoint) :
    ∀ (l : List PPoint) (i : ℕ) (p : PPoint),
      (p ∈ (paretoSplitGo minY all i l).2 ↔
        ∃ k, ∃ hk : k < l.length, l.get ⟨k, hk⟩ = p ∧
          isDominatedIdx minY all (i + k) p = true) := by
  intro l
  induction l with
  | nil => intro i p; simp [paretoSplitGo]
  | cons q qs ih =>
    intro i p
    simp only [paretoSplitGo]
    by_cases hd : isDominatedIdx minY all i q = true
    · rw [if_pos hd]
      simp only [List.mem_cons]
      constructor
      · rintro (rfl | hp)
        · exact ⟨0, by simp, by simp, by simpa using hd⟩
        · obtain ⟨k, hk, hget, hdom⟩ := (ih (i + 1) p).mp hp
          refine ⟨k + 1, by simpa using Nat.succ_lt_succ hk, by simpa using hget, ?_⟩
          have : i + (k + 1) = i + 1 + k := by omega
          rw [this]
          exact hdom
      · rintro ⟨k, hk, hget, hdom⟩
        cases k with
        | zero =>
          left
          simpa using hget.symm
        | succ k' =>
          right
          refine (ih (i + 1) p).mpr ⟨k', by simp only [List.length_cons] at hk; omega, by simpa using hget, ?_⟩
          have : i + 1 + k' = i + (k' + 1) := by omega
          rw [this]
          exact hdom
    · rw [if_neg hd]
      constructor
      · intro hp
        obtain ⟨k, hk, hget, hdom⟩ := (ih (i + 1) p).mp hp
        refine ⟨k + 1, by simpa using Nat.succ_lt_succ hk, by simpa using hget, ?_⟩
        have : i + (k + 1) = i + 1 + k := by omega
        rw [this]
        exact hdom
      · rintro ⟨k, hk, hget, hdom⟩
        cases k with
        | zero =>
          exfalso
          apply hd
          have hqp : q = p := by simpa using hget
          rw [hqp]
          simpa using hdom
        | succ k' =>
          refine (ih (i + 1) p).mpr ⟨k', by simp only [List.length_cons] at hk; omega, by simpa using hget, ?_⟩
          have : i + 1 + k' = i + (k' + 1) := by omega
          rw [this]
          exact hdom

theorem paretoSplitGo_fst_mem (minY : Bool) (all : List PPoint) :
    ∀ (l : List PPoint) (i : ℕ) (p : PPoint),
      (p ∈ (paretoSplitGo minY all i l).1 ↔
        ∃ k, ∃ hk : k < l.length, l.get ⟨k, hk⟩ = p ∧
          isDominatedIdx minY all (i + k) p = false) := by
  intro l
  induction l with
  | nil => intro i p; simp [paretoSplitGo]
  | cons q qs ih =>
    intro i p
    simp only [paretoSplitGo]
    by_cases hd : isDominatedIdx minY all i q = true
    · rw [if_pos hd]
      constructor
      · intro hp
        obtain ⟨k, hk, hget, hdom⟩ := (ih (i + 1) p).mp hp
        refine ⟨k + 1, by simpa using Nat.succ_lt_succ hk, by simpa using hget, ?_⟩
        have : i + (k + 1) = i + 1 + k := by omega
        rw [this]
        exact hdom
      · rintro ⟨k, hk, hget, hdom⟩
        cases k with
        | zero =>
          exfalso
          have hqp : q = p := by simpa using hget
          rw [hqp] at hd
          rw [show i + 0 = i from rfl] at hdom
          rw [hd] at hdom
          exact Bool.noConfusion hdom
        | succ k' =>
          refine (ih (i + 1) p).mpr ⟨k', by simp only [List.length_cons] at hk; omega, by simpa using hget, ?_⟩
          have : i + 1 + k' = i + (k' + 1) := by omega
          rw [this]
          exact hdom
    · rw [if_neg hd]
      simp only [List.mem_cons]
      constructor
      · rintro (rfl | hp)
        · exact ⟨0, by simp, by simp,
            by simpa using Bool.eq_false_iff.mpr hd⟩
        · obtain ⟨k, hk, hget, hdom⟩ := (ih (i + 1) p).mp hp
          refine ⟨k + 1, by simpa using Nat.succ_lt_succ hk, by simpa using hget, ?_⟩
          have : i + (k + 1) = i + 1 + k := by omega
          rw [this]
          exact hdom
      · rintro ⟨k, hk, hget, hdom⟩
        cases k with
        | zero =>
          left
          simpa using hget.symm
        | succ k' =>
          right
          refine (ih (i + 1) p).mpr ⟨k', by simp only [List.length_cons] at hk; omega, by simpa using hget, ?_⟩
          have : i + 1 + k' = i + (k' + 1) := by omega
          rw [this]
          exact hdom

theorem paretoSplitGo_fst_subset (minY : Bool) (all l : List PPoint) (i : ℕ)
    (p : PPoint) (hp : p ∈ (paretoSplitGo minY all i l).1) : p ∈ l := by
  obtain ⟨k, hk, hget, _⟩ := (paretoSplitGo_fst_mem minY all l i p).mp hp
  rw [← hget]
  exact List.get_mem _ _ _

theorem paretoSplitGo_snd_subset (minY : Bool) (all l : List PPoint) (i : ℕ)
    (p : PPoint) (hp : p ∈ (paretoSplitGo minY all i l).2) : p ∈ l := by
  obtain ⟨k, hk, hget, _⟩ := (paretoSplitGo_snd_mem minY all l i p).mp hp
  rw [← hget]
  exact List.get_mem _ _ _

theorem calculate_pareto_frontier_eq (xm ym : String) (minY : Bool)
    (scenarios : List ScenDict) (hne : scenarios ≠ [])
    (hval : ∀ s ∈ scenarios, isValidScen xm ym s) :
    calculate_pareto_frontier scenarios xm ym minY =
      ((List.insertionSort ptLE
          (paretoSplitGo minY (List.insertionSort ptLE (scenarios.map (mkPt xm ym))) 0
            (List.insertionSort ptLE (scenarios.map (mkPt xm ym)))).1).map (fun p => p.scen),
       (paretoSplitGo minY (List.insertionSort ptLE (scenarios.map (mkPt xm ym))) 0
          (List.insertionSort ptLE (scenarios.map (mkPt xm ym)))).2.map (fun p => p.scen)) := by
  unfold calculate_pareto_frontier
  rw [filterMap_validPoint_eq_map hval]
  have h1 : ¬ scenarios.length = 0 := by simpa [List.length_eq_zero] using hne
  have h2 : ¬ (scenarios.map (mkPt xm ym)).length = 0 := by simpa using h1
  rw [if_neg h1, if_neg h2]

theorem mem_sorted_points_iff (xm ym : String) (scenarios : List ScenDict) (p : PPoint) :
    p ∈ List.insertionSort ptLE (scenarios.map (mkPt xm ym)) ↔
      ∃ s ∈ scenarios, p = mkPt xm ym s := by
  rw [(List.perm_insertionSort ptLE _).mem_iff]
  simp only [List.mem_map]
  constructor
  · rintro ⟨s, hs, rfl⟩; exact ⟨s, hs, rfl⟩
  · rintro ⟨s, hs, rfl⟩; exact ⟨s, hs, rfl⟩

theorem pareto_dominated_mem_iff (xm ym : String) (scenarios : List ScenDict)
    (hne : scenarios ≠ []) (hval : ∀ s ∈ scenarios, isValidScen xm ym s) (s : ScenDict) :
    (s ∈ (calculate_pareto_frontier scenarios xm ym true).2 ↔
      s ∈ scenarios ∧ ∃ t ∈ scenarios, domRel xm ym t s) := by
  rw [calculate_pareto_frontier_eq xm ym true scenarios hne hval]
  simp only [List.mem_map]
  constructor
  · rintro ⟨p, hp, rfl⟩
    obtain ⟨k, hk, hget, hdom⟩ := (paretoSplitGo_snd_mem true _ _ 0 p).mp hp
    rw [Nat.zero_add] at hdom
    have hpmem : p ∈ List.insertionSort ptLE (scenarios.map (mkPt xm ym)) := by
      rw [← hget]; exact List.get_mem _ _ _
    obtain ⟨s', hs', hps'⟩ := (mem_sorted_points_iff xm ym scenarios p).mp hpmem
    obtain ⟨q, hq, hqdom⟩ := (isDominatedIdx_iff true _ k p hk hget).mp hdom
    obtain ⟨t, ht, hqt⟩ := (mem_sorted_points_iff xm ym scenarios q).mp hq
    subst hps'
    subst hqt
    exact ⟨hs', t, ht, dominatesB_mkPt_iff.mp hqdom⟩
  · rintro ⟨hs, t, ht, hdom⟩
    refine ⟨mkPt xm ym s, ?_, rfl⟩
    have hmem : mkPt xm ym s ∈ List.insertionSort ptLE (scenarios.map (mkPt xm ym)) :=
      (mem_sorted_points_iff xm ym scenarios _).mpr ⟨s, hs, rfl⟩
    obtain ⟨⟨k, hk⟩, hget⟩ := List.mem_iff_get.mp hmem
    refine (paretoSplitGo_snd_mem true _ _ 0 _).mpr ⟨k, hk, hget, ?_⟩
    rw [Nat.zero_add]
    refine (isDominatedIdx_iff true _ k _ hk hget).mpr ?_
    exact ⟨mkPt xm ym t, (mem_sorted_points_iff xm ym scenarios _).mpr ⟨t, ht, rfl⟩,
      dominatesB_mkPt_iff.mpr hdom⟩

theorem pareto_frontier_mem_iff (xm ym : String) (scenarios : List ScenDict)
    (hne : scenarios ≠ []) (hval : ∀ s ∈ scenarios, isValidScen xm ym s) (s : ScenDict) :
    (s ∈ (calculate_pareto_frontier scenarios xm ym true).1 ↔
      s ∈ scenarios ∧ ¬ ∃ t ∈ scenarios, domRel xm ym t s) := by
  rw [calculate_pareto_frontier_eq xm ym true scenarios hne hval]
  simp only [List.mem_map]
  constructor
  · rintro ⟨p, hp, rfl⟩
    rw [(List.perm_insertionSort ptLE _).mem_iff] at hp
    obtain ⟨k, hk, hget, hdom⟩ := (paretoSplitGo_fst_mem true _ _ 0 p).mp hp
    rw [Nat.zero_add] at hdom
    have hpmem : p ∈ List.insertionSort ptLE (scenarios.map (mkPt xm ym)) := by
      rw [← hget]; exact List.get_mem _ _ _
    obtain ⟨s', hs', hps'⟩ := (mem_sorted_points_iff xm ym scenarios p).mp hpmem
    subst hps'
    refine ⟨hs', ?_⟩
    rintro ⟨t, ht, hdomrel⟩
    have htrue : isDominatedIdx true (List.insertionSort ptLE (scenarios.map (mkPt xm ym)))
        k (mkPt xm ym s') = true :=
      (isDominatedIdx_iff true _ k _ hk hget).mpr
        ⟨mkPt xm ym t, (mem_sorted_points_iff xm ym scenarios _).mpr ⟨t, ht, rfl⟩,
          dominatesB_mkPt_iff.mpr hdomrel⟩
    rw [htrue] at hdom
    exact Bool.noConfusion hdom
  · rintro ⟨hs, hnodom⟩
    refine ⟨mkPt xm ym s, ?_, rfl⟩
    rw [(List.perm_insertionSort ptLE _).mem_iff]
    have hmem : mkPt xm ym s ∈ List.insertionSort ptLE (scenarios.map (mkPt xm ym)) :=
      (mem_sorted_points_iff xm ym scenarios _).mpr ⟨s, hs, rfl⟩
    obtain ⟨⟨k, hk⟩, hget⟩ := List.mem_iff_get.mp hmem
    refine (paretoSplitGo_fst_mem true _ _ 0 _).mpr ⟨k, hk, hget, ?_⟩
    rw [Nat.zero_add]
    rw [Bool.eq_false_iff]
    intro hcon
    obtain ⟨q, hq, hqdom⟩ := (isDominatedIdx_iff true _ k _ hk hget).mp hcon
    obtain ⟨t, ht, hqt⟩ := (mem_sorted_points_iff xm ym scenarios q).mp hq
    subst hqt
    exact hnodom ⟨t, ht, dominatesB_mkPt_iff.mp hqdom⟩

theorem pareto_frontier_sorted (xm ym : String) (scenarios : List ScenDict)
    (hval : ∀ s ∈ scenarios, isValidScen xm ym s) :
    List.Sorted (· ≤ ·) ((calculate_pareto_frontier scenarios xm ym true).1.map (xOf xm)) := by
  by_cases hne : scenarios = []
  · subst hne
    exact List.sorted_nil
  · rw [calculate_pareto_frontier_eq xm ym true scenarios hne hval]
    rw [List.map_map]
    have hsorted0 : List.Sorted ptLE (List.insertionSort ptLE
        (paretoSplitGo true (List.insertionSort ptLE (scenarios.map (mkPt xm ym))) 0
          (List.insertionSort ptLE (scenarios.map (mkPt xm ym)))).1) :=
      List.sorted_insertionSort ptLE _
    have hshape : ∀ p ∈ List.insertionSort ptLE
        (paretoSplitGo true (List.insertionSort ptLE (scenarios.map (mkPt xm ym))) 0
          (List.insertionSort ptLE (scenarios.map (mkPt xm ym)))).1,
        p.x = xOf xm p.scen := by
      intro p hp
      rw [(List.perm_insertionSort ptLE _).mem_iff] at hp
      have hp2 := paretoSplitGo_fst_subset _ _ _ _ p hp
      obtain ⟨s', _, rfl⟩ := (mem_sorted_points_iff xm ym scenarios p).mp hp2
      rfl
    refine (List.pairwise_map).mpr (hsorted0.imp_of_mem ?_)
    intro a b ha hb hab
    have hha := hshape a ha
    have hhb := hshape b hb
    simp only [Function.comp]
    rw [← hha, ← hhb]
    exact hab

theorem pareto_invalid_mem_any (xm ym : String) (minY : Bool) (scenarios : List ScenDict)
    (hlen : ¬ scenarios.length = 0)
    (hpts : ¬ (scenarios.filterMap (validPoint xm ym)).length = 0) (s : ScenDict)
    (hbad : validPoint xm ym s = none) :
    s ∉ (calculate_pareto_frontier scenarios xm ym minY).1 ∧
    s ∉ (calculate_pareto_frontier scenarios xm ym minY).2 := by
  unfold calculate_pareto_frontier
  rw [if_neg hlen, if_neg hpts]
  constructor
  · intro hmem
    simp only [List.mem_map] at hmem
    obtain ⟨q, hq, hqs⟩ := hmem
    rw [(List.perm_insertionSort ptLE _).mem_iff] at hq
    have hq2 := paretoSplitGo_fst_subset _ _ _ _ q hq
    rw [(List.perm_insertionSort ptLE _).mem_iff] at hq2
    obtain ⟨a, _, hva⟩ := List.mem_filterMap.mp hq2
    obtain ⟨hqa, _⟩ := validPoint_scen hva
    have hsa : s = a := by rw [← hqs, hqa]; rfl
    rw [← hsa] at hva
    rw [hbad] at hva
    exact Option.noConfusion hva
  · intro hmem
    simp only [List.mem_map] at hmem
    obtain ⟨q, hq, hqs⟩ := hmem
    have hq2 := paretoSplitGo_snd_subset _ _ _ _ q hq
    rw [(List.perm_insertionSort ptLE _).mem_iff] at hq2
    obtain ⟨a, _, hva⟩ := List.mem_filterMap.mp hq2
    obtain ⟨hqa, _⟩ := validPoint_scen hva
    have hsa : s = a := by rw [← hqs, hqa]; rfl
    rw [← hsa] at hva
    rw [hbad] at hva
    exact Option.noConfusion hva

end LifeFlight

namespace LifeFlight

/-! ## Claims C2 and C10: the Pareto frontier -/

/-- Point A of the specification example: coverage 50, response 20. -/
def scenA : ScenDict := [("coverage_rate", some 50), ("avg_response_time", some 20)]

/-- Point B of the specification example: coverage 70, response 15. -/
def scenB : ScenDict := [("coverage_rate", some 70), ("avg_response_time", some 15)]

/-- Point C of the specification example: coverage 70, response 25. -/
def scenC : ScenDict := [("coverage_rate", some 70), ("avg_response_time", some 25)]

theorem pareto_abc_eval :
    calculate_pareto_frontier [scenA, scenB, scenC] "coverage_rate" "avg_response_time"
      true = ([scenB], [scenA, scenC]) := by
  decide

/-- C2 counterexample: on the specification points
A(x=50, y=20), B(x=70, y=15), C(x=70, y=25), the computed frontier is
`[B]` and the dominated list is `[A, C]` — A is not on the frontier,
because B has both strictly better x and strictly better y than A and
therefore dominates it under the very rule the claim states. -/
theorem pareto_frontier_abc_cex :
    calculate_pareto_frontier [scenA, scenB, scenC] "coverage_rate" "avg_response_time"
        true = ([scenB], [scenA, scenC]) ∧
    scenA ∉ (calculate_pareto_frontier [scenA, scenB, scenC] "coverage_rate"
        "avg_response_time" true).1 := by
  refine ⟨pareto_abc_eval, ?_⟩
  rw [pareto_abc_eval]
  decide

/-- C2 amended: with `minimize_y = true` and every input scenario
valid (non-NaN, non-negative metrics), `calculate_pareto_frontier`
classifies a point `P` as dominated exactly when some point `Q` of the
input satisfies `Q.x ≥ P.x ∧ Q.y < P.y` or `Q.x > P.x ∧ Q.y ≤ P.y`,
places exactly the non-dominated points on the frontier, and returns
the frontier sorted ascending by the x metric; on the three example
points the frontier is `[B]` and the dominated list `[A, C]` (A is
dominated by B, not on the frontier as originally claimed). -/
theorem pareto_frontier_spec_amended (xm ym : String) (scenarios : List ScenDict)
    (hval : ∀ s ∈ scenarios, isValidScen xm ym s) :
    (∀ s, s ∈ (calculate_pareto_frontier scenarios xm ym true).2 ↔
      (s ∈ scenarios ∧ ∃ t ∈ scenarios, domRel xm ym t s)) ∧
    (∀ s, s ∈ (calculate_pareto_frontier scenarios xm ym true).1 ↔
      (s ∈ scenarios ∧ ¬ ∃ t ∈ scenarios, domRel xm ym t s)) ∧
    List.Sorted (· ≤ ·) ((calculate_pareto_frontier scenarios xm ym true).1.map (xOf xm)) ∧
    calculate_pareto_frontier [scenA, scenB, scenC] "coverage_rate" "avg_response_time"
      true = ([scenB], [scenA, scenC]) := by
  by_cases hne : scenarios = []
  · subst hne
    refine ⟨?_, ?_, List.sorted_nil, pareto_abc_eval⟩
    · intro s; simp [calculate_pareto_frontier]
    · intro s; simp [calculate_pareto_frontier]
  · exact ⟨fun s => pareto_dominated_mem_iff xm ym scenarios hne hval s,
      fun s => pareto_frontier_mem_iff xm ym scenarios hne hval s,
      pareto_frontier_sorted xm ym scenarios hval,
      pareto_abc_eval⟩

/-- C2 witness: the amended specification applied to the three example
points themselves (all valid). -/
theorem pareto_frontier_spec_amended_witness :
    (∀ s ∈ [scenA, scenB, scenC],
      isValidScen "coverage_rate" "avg_response_time" s) ∧
    ((∀ s, s ∈ (calculate_pareto_frontier [scenA, scenB, scenC] "coverage_rate"
        "avg_response_time" true).2 ↔
      (s ∈ [scenA, scenB, scenC] ∧ ∃ t ∈ [scenA, scenB, scenC],
        domRel "coverage_rate" "avg_response_time" t s)) ∧
    (∀ s, s ∈ (calculate_pareto_frontier [scenA, scenB, scenC] "coverage_rate"
        "avg_response_time" true).1 ↔
      (s ∈ [scenA, scenB, scenC] ∧ ¬ ∃ t ∈ [scenA, scenB, scenC],
        domRel "coverage_rate" "avg_response_time" t s)) ∧
    List.Sorted (· ≤ ·) ((calculate_pareto_frontier [scenA, scenB, scenC] "coverage_rate"
        "avg_response_time" true).1.map (xOf "coverage_rate")) ∧
    calculate_pareto_frontier [scenA, scenB, scenC] "coverage_rate" "avg_response_time"
      true = ([scenB], [scenA, scenC])) :=
  ⟨by decide,
    pareto_frontier_spec_amended "coverage_rate" "avg_response_time"
      [scenA, scenB, scenC] (by decide)⟩

/-- A scenario whose x metric is NaN: it is skipped by the validity
filter of the Pareto computation. -/
def scenBad : ScenDict := [("coverage_rate", none), ("avg_response_time", some 5)]

/-- C10: a scenario with a NaN or negative metric is silently excluded
from both returned lists whenever at least one input scenario is
valid; when every input scenario is invalid, the frontier is empty and
the entire original input is returned as the dominated list. -/
theorem pareto_invalid_points_excluded (scenarios : List ScenDict) (xm ym : String)
    (minY : Bool) (s : ScenDict) (hs : s ∈ scenarios)
    (hbad : validPoint xm ym s = none) :
    ((∃ t ∈ scenarios, validPoint xm ym t ≠ none) →
      s ∉ (calculate_pareto_frontier scenarios xm ym minY).1 ∧
      s ∉ (calculate_pareto_frontier scenarios xm ym minY).2) ∧
    ((∀ t ∈ scenarios, validPoint xm ym t = none) →
      (calculate_pareto_frontier scenarios xm ym minY).1 = [] ∧
      (calculate_pareto_frontier scenarios xm ym minY).2 = scenarios) := by
  have hlen : ¬ scenarios.length = 0 := by
    have hne := List.ne_nil_of_mem hs
    simpa [List.length_eq_zero] using hne
  constructor
  · rintro ⟨t, ht, hvt⟩
    obtain ⟨p, hp⟩ := Option.ne_none_iff_exists'.mp hvt
    have hpts : ¬ (scenarios.filterMap (validPoint xm ym)).length = 0 := by
      have hmem : p ∈ scenarios.filterMap (validPoint xm ym) :=
        List.mem_filterMap.mpr ⟨t, ht, hp⟩
      have hne := List.ne_nil_of_mem hmem
      simpa [List.length_eq_zero] using hne
    exact pareto_invalid_mem_any xm ym minY scenarios hlen hpts s hbad
  · intro hall
    have hnil : scenarios.filterMap (validPoint xm ym) = [] :=
      List.filterMap_eq_nil_iff.mpr hall
    unfold calculate_pareto_frontier
    rw [if_neg hlen, hnil]
    simp

/-- C10 witness: one NaN scenario next to one valid scenario — the NaN
scenario lands in neither output list; and with only the NaN scenario
the whole input comes back as dominated. -/
theorem pareto_invalid_points_excluded_witness :
    (scenBad ∈ [scenBad, scenA] ∧
      validPoint "coverage_rate" "avg_response_time" scenBad = none) ∧
    (((∃ t ∈ [scenBad, scenA],
        validPoint "coverage_rate" "avg_response_time" t ≠ none) →
      scenBad ∉ (calculate_pareto_frontier [scenBad, scenA] "coverage_rate"
          "avg_response_time" true).1 ∧
      scenBad ∉ (calculate_pareto_frontier [scenBad, scenA] "coverage_rate"
          "avg_response_time" true).2) ∧
    ((∀ t ∈ [scenBad, scenA],
        validPoint "coverage_rate" "avg_response_time" t = none) →
      (calculate_pareto_frontier [scenBad, scenA] "coverage_rate"
          "avg_response_time" true).1 = [] ∧
      (calculate_pareto_frontier [scenBad, scenA] "coverage_rate"
          "avg_response_time" true).2 = [scenBad, scenA])) :=
  ⟨⟨by decide, by decide⟩,
    pareto_invalid_points_excluded [scenBad, scenA] "coverage_rate" "avg_response_time"
      true scenBad (by decide) (by decide)⟩

end LifeFlight

namespace LifeFlight

/-! ## Claim C3: mission capacity -/

/-- C3: the estimated annual capacity is
`fleet_size * missions_per_vehicle_per_day * operational_days_per_year`,
the crew count has no effect on the result, and
`fleet_size = 3, missions_per_vehicle_per_day = 3` with the default
365 operational days yields exactly 3285. -/
theorem estimate_mission_capacity_spec (fleetSize crews crews' : ℤ) (m : ℚ) (days : ℤ) :
    estimate_mission_capacity fleetSize crews m days =
      (fleetSize : ℚ) * m * (days : ℚ) ∧
    estimate_mission_capacity fleetSize crews m days =
      estimate_mission_capacity fleetSize crews' m days ∧
    estimate_mission_capacity 3 crews 3 365 = 3285 := by
  refine ⟨rfl, rfl, ?_⟩
  norm_num [estimate_mission_capacity]

/-! ## Claim C7: cost estimation -/

/-- C7 counterexample: called with a negative `fleet_size`,
`estimate_cost` does not raise anything — it returns the arithmetic
result (with a negative vehicle cost), so the claimed `ValueError` on
negative inputs does not exist in the code. -/
theorem estimate_cost_negative_cex :
    (estimate_cost (-1) 2 1 500000 100000 80000).total_cost = 240000 ∧
    (estimate_cost (-1) 2 1 500000 100000 80000).base_cost = 500000 ∧
    (estimate_cost (-1) 2 1 500000 100000 80000).vehicle_cost = -100000 ∧
    (estimate_cost (-1) 2 1 500000 100000 80000).crew_cost = -160000 ∧
    (estimate_cost (-1) 2 1 500000 100000 80000).cost_per_mission = 240 := by
  refine ⟨?_, ?_, ?_, ?_, ?_⟩ <;> norm_num [estimate_cost]

/-- C7 amended: `estimate_cost` computes
`base_cost = base_count * base_rate`, `vehicle_cost = fleet_size *
vehicle_rate`, `crew_cost = fleet_size * crews_per_vehicle * crew_rate`
and `total = their sum` for every input, negative inputs included: the
function has no failure mode at all and never rejects anything. -/
theorem estimate_cost_formula_amended (f c b : ℤ) (br vr cr : ℚ) :
    (estimate_cost f c b br vr cr).base_cost = (b : ℚ) * br ∧
    (estimate_cost f c b br vr cr).vehicle_cost = (f : ℚ) * vr ∧
    (estimate_cost f c b br vr cr).crew_cost = (f : ℚ) * (c : ℚ) * cr ∧
    (estimate_cost f c b br vr cr).total_cost =
      (b : ℚ) * br + (f : ℚ) * vr + (f : ℚ) * (c : ℚ) * cr :=
  ⟨rfl, rfl, rfl, rfl⟩

/-! ## Claim C8: unmet demand -/

/-- C8: for a non-negative historical mission count, non-negative
capacity and coverage rate in `[0, 1]`, `estimate_unmet_demand`
returns `covered_demand = historical_missions * coverage_rate`,
a never-negative `unmet_missions = max 0 (covered_demand - capacity)`,
and `unmet_rate = unmet / covered_demand * 100` with rate `0` when the
covered demand is `0`. -/
theorem estimate_unmet_demand_spec (h : ℤ) (cap cr : ℚ)
    (hh : 0 ≤ h) (hcap : 0 ≤ cap) (hcr0 : 0 ≤ cr) (hcr1 : cr ≤ 1) :
    (estimate_unmet_demand h cap cr).covered_demand = (h : ℚ) * cr ∧
    (estimate_unmet_demand h cap cr).unmet_missions =
      max 0 ((h : ℚ) * cr - cap) ∧
    0 ≤ (estimate_unmet_demand h cap cr).unmet_missions ∧
    ((h : ℚ) * cr = 0 → (estimate_unmet_demand h cap cr).unmet_rate = 0) ∧
    ((h : ℚ) * cr ≠ 0 → (estimate_unmet_demand h cap cr).unmet_rate =
      (estimate_unmet_demand h cap cr).unmet_missions / ((h : ℚ) * cr) * 100) := by
  refine ⟨rfl, rfl, le_max_left 0 _, ?_, ?_⟩
  · intro h0
    simp [estimate_unmet_demand, h0]
  · intro hne
    have hpos : 0 < (h : ℚ) * cr := by
      have hnn : 0 ≤ (h : ℚ) * cr :=
        mul_nonneg (by exact_mod_cast hh) hcr0
      exact lt_of_le_of_ne hnn (Ne.symm hne)
    simp [estimate_unmet_demand, hpos]

/-- C8 witness: the specification evaluated at
`historical_missions = 100`, `capacity = 10`, `coverage_rate = 1/2`. -/
theorem estimate_unmet_demand_spec_witness :
    ((0:ℤ) ≤ 100 ∧ (0:ℚ) ≤ 10 ∧ (0:ℚ) ≤ 1/2 ∧ (1/2:ℚ) ≤ 1) ∧
    ((estimate_unmet_demand 100 10 (1/2)).covered_demand = ((100:ℤ) : ℚ) * (1/2) ∧
    (estimate_unmet_demand 100 10 (1/2)).unmet_missions =
      max 0 (((100:ℤ) : ℚ) * (1/2) - 10) ∧
    0 ≤ (estimate_unmet_demand 100 10 (1/2)).unmet_missions ∧
    (((100:ℤ) : ℚ) * (1/2) = 0 → (estimate_unmet_demand 100 10 (1/2)).unmet_rate = 0) ∧
    (((100:ℤ) : ℚ) * (1/2) ≠ 0 → (estimate_unmet_demand 100 10 (1/2)).unmet_rate =
      (estimate_unmet_demand 100 10 (1/2)).unmet_missions / (((100:ℤ) : ℚ) * (1/2)) * 100)) :=
  ⟨⟨by norm_num, by norm_num, by norm_num, by norm_num⟩,
    estimate_unmet_demand_spec 100 10 (1/2)
      (by norm_num) (by norm_num) (by norm_num) (by norm_num)⟩

end LifeFlight
